import Mathlib

set_option maxHeartbeats 1000000

/-!
Shallow embedding of the backport GitHub action
(`src/backport/backport.ts`) and the enterprise branch-sync action
of trevorwhitney/grafana-github-actions, together with theorems about
the behaviour described in the repository specification.
-/

/-- The lint-debt snapshot path, `BETTERER_RESULTS_PATH` in backport.ts. -/
def bettererResultsPath : String := ".betterer.results"

/-- The approval labels, constant `backportLabels` in backport.ts. -/
def backportLabels : List String := ["type/docs", "type/bug", "product-approved"]

/-- The marker label, constant `missingLabels` in backport.ts. -/
def missingLabels : String := "missing-labels"

/-- A character matching the regex class `[^ ]`. -/
def nonSpace (c : Char) : Bool := c != ' '

/-- Matching of the tail of `labelRegExp = /backport ([^ ]+)(?: ([^ ]+))?$/`
after the literal `backport `: the base capture is the maximal non-space run
(greedy `[^ ]+`); after it the string must end, or contain exactly one space
followed by a non-space run (the optional head capture) ending the string. -/
def matchSuffix (u : List Char) : Option (List Char × Option (List Char)) :=
  let base := u.takeWhile nonSpace
  let rest := u.dropWhile nonSpace
  if base.isEmpty then none
  else
    match rest with
    | [] => some (base, none)
    | c :: r =>
      if c = ' ' && !r.isEmpty && r.all nonSpace then some (base, some r) else none

/-- The character list of the literal `backport ` that `labelRegExp` requires. -/
def backportLit : List Char := "backport ".toList

/-- `labelRegExp.exec` on a label: the JS engine tries each start position from
the left; at a given start the literal `backport ` must occur and the remaining
suffix must match `([^ ]+)(?: ([^ ]+))?$`; the first start that matches wins. -/
def execLabelRegExp : List Char → Option (List Char × Option (List Char))
  | [] => none
  | c :: cs =>
    if (c :: cs).take 9 = backportLit then
      match matchSuffix ((c :: cs).drop 9) with
      | some r => some r
      | none => execLabelRegExp cs
    else execLabelRegExp cs

/-- `labelRegExp.test` on a label name. -/
def labelTest (s : String) : Bool := (execLabelRegExp s.toList).isSome

/-- The default head branch name `backport-<PR#>-to-<base>` used when the label
omits an explicit head (backport.ts line 64). -/
def deriveHead (pr : Nat) (base : String) : String :=
  "backport-" ++ toString pr ++ "-to-" ++ base

/-- Parse one label name with `labelRegExp` and resolve the head default, as in
the destructuring `const [, base, head = ...] = matches` of backport.ts. -/
def parseBackportLabel (pr : Nat) (name : String) : Option (String × String) :=
  match execLabelRegExp name.toList with
  | none => none
  | some (b, h) =>
    let base := String.mk b
    some (base, match h with | some hd => String.mk hd | none => deriveHead pr base)

/-- `getLabelNames` from backport.ts: which label names are considered for the
given webhook action. -/
def getLabelNames (action : String) (label : String) (labels : List String) :
    List String :=
  if action = "closed" then labels
  else if action = "labeled" then [label]
  else []

/-- `getMatchedBackportLabels` from backport.ts: for each PR label, every
element of the approval-label list equal to it is collected. -/
def getMatchedBackportLabels (labelsPR : List String) (bls : List String) :
    List String :=
  labelsPR.foldl (fun acc pl => acc ++ bls.filter (fun bl => bl == pl)) []

/-- JS object key assignment `m[k] = v` on the association-list model of the
`baseToHead` object: an existing key keeps its position and gets the new value,
a new key is appended. -/
def upsert : List (String × String) → String → String → List (String × String)
  | [], k, v => [(k, v)]
  | (k₁, v₁) :: rest, k, v =>
    if k₁ = k then (k, v) :: rest else (k₁, v₁) :: upsert rest k v

/-- One iteration of the `forEach` body of `getBackportBaseToHead`. -/
def insLabel (pr : Nat) (m : List (String × String)) (name : String) :
    List (String × String) :=
  match parseBackportLabel pr name with
  | some q => upsert m q.1 q.2
  | none => m

/-- `getBackportBaseToHead` from backport.ts: fold the considered label names
into the base-to-head object. -/
def getBackportBaseToHead (action label : String) (labels : List String)
    (pr : Nat) : List (String × String) :=
  (getLabelNames action label labels).foldl (insLabel pr) []

/-- Lookup in the association-list model of the JS object. -/
def lookupMap : List (String × String) → String → Option String
  | [], _ => none
  | (k, v) :: rest, b => if k = b then some v else lookupMap rest b

/-- Modelled from the spec: the head resolved for base `b` by the last label in
the list whose base capture is `b` ("last label for a given base wins"). -/
def lastHeadFor (pr : Nat) (b : String) : List String → Option String
  | [] => none
  | n :: rest =>
    match lastHeadFor pr b rest with
    | some h => some h
    | none =>
      match parseBackportLabel pr n with
      | some q => if q.1 = b then some q.2 else none
      | none => none

/-- JavaScript `String.prototype.trim`, as applied by `isBettererConflict` to
the stdout of `git diff`: strip whitespace from both ends. -/
def jsTrim (s : String) : String :=
  String.mk (((s.data.dropWhile Char.isWhitespace).reverse.dropWhile
    Char.isWhitespace).reverse)

/-- Scanner for global literal replacement: at each position, if the pattern
`p :: ps` starts there, emit the replacement and continue after it, else keep
the character.  The fuel bounds the number of scan steps. -/
def replGo (p : Char) (ps rep : List Char) : Nat → List Char → List Char
  | _, [] => []
  | 0, s => s
  | fuel + 1, c :: cs =>
    if c = p ∧ ps = cs.take ps.length then
      rep ++ replGo p ps rep fuel (cs.drop ps.length)
    else c :: replGo p ps rep fuel cs

/-- JavaScript `s.replace(new RegExp(escapeRegExp(pat), 'g'), rep)`: replace
every non-overlapping occurrence of the literal pattern, left to right. -/
def jsReplace (s pat rep : String) : String :=
  match pat.data with
  | [] => s
  | p :: ps => String.mk (replGo p ps rep.data s.data.length s.data)

/-- External side effects performed by the backport action, in order. -/
inductive Eff
  | clone
  | gitSwitch (base : String)
  | gitSwitchCreate (head : String)
  | gitCherryPick (sha : String)
  | gitDiffUnmerged
  | bettererUpdate
  | gitAddFile (f : String)
  | gitCherryPickContinue
  | gitCherryPickAbort
  | gitPush (head : String)
  | createPull (base head title body : String)
  | updateIssueMilestone (issue ms : Nat)
  | deleteReviewReq (pull : Nat) (reviewers : List String)
  | createReviewReq (pull : Nat) (reviewers : List String)
  | addLabelsTo (issue : Nat) (labels : List String)
  | createComment (issue : Nat) (body : String)
  | removeLabelFrom (issue : Nat) (label : String)
  deriving DecidableEq, Repr

/-- A milestone as used by backport.ts: truthiness of `milestone.id` gates the
milestone-sync call, which passes `milestone.number`. -/
structure Milestone where
  id : Nat
  number : Nat
  deriving DecidableEq, Repr

/-- Outcomes of the external calls made during one branch backport: `none`
means the awaited call succeeded, `some m` that it threw an error whose
message is `m`.  `diffStdout` is the output of
`git diff --name-only --diff-filter=U` after a failed cherry-pick,
`prNumber` the number of the created pull request, `requestedReviewers` the
`requested_reviewers` field of the create response (absent or a list). -/
structure BranchEnv where
  switchBase : Option String
  switchCreate : Option String
  cherryPick : Option String
  diffStdout : String
  bettererRun : Option String
  gitAdd : Option String
  cpContinue : Option String
  push : Option String
  createPR : Option String
  prNumber : Nat
  requestedReviewers : Option (List String)
  milestoneUpdate : Option String
  deleteReview : Option String
  createReview : Option String
  addLabelsRes : Option String

/-- Sequence two effectful phases: the second runs only when the first did not
throw; effects of the first are kept either way. -/
def seqE (a b : List Eff × Option String) : List Eff × Option String :=
  match a with
  | (e, some m) => (e, some m)
  | (e, none) => (e ++ b.1, b.2)

/-- The two `git switch` calls opening `backportOnce`. -/
def switchPhase (env : BranchEnv) (base head : String) : List Eff × Option String :=
  seqE ([Eff.gitSwitch base], env.switchBase)
    ([Eff.gitSwitchCreate head], env.switchCreate)

/-- `fixBettererConflict` from backport.ts, wrapped in the inner try/catch: run
the betterer tool in update mode, stage the snapshot file, continue the
cherry-pick with the commit-message editor suppressed; if any of the three
steps throws, the cherry-pick is aborted and that step's error is rethrown. -/
def fixPhase (env : BranchEnv) : List Eff × Option String :=
  match env.bettererRun with
  | some m => ([Eff.bettererUpdate, Eff.gitCherryPickAbort], some m)
  | none =>
    match env.gitAdd with
    | some m =>
      ([Eff.bettererUpdate, Eff.gitAddFile bettererResultsPath,
        Eff.gitCherryPickAbort], some m)
    | none =>
      match env.cpContinue with
      | some m =>
        ([Eff.bettererUpdate, Eff.gitAddFile bettererResultsPath,
          Eff.gitCherryPickContinue, Eff.gitCherryPickAbort], some m)
      | none =>
        ([Eff.bettererUpdate, Eff.gitAddFile bettererResultsPath,
          Eff.gitCherryPickContinue], none)

/-- The `git cherry-pick -x` call and its surrounding try/catch, including
`isBettererConflict` (the trimmed diff output must equal the snapshot path)
and the abort-and-rethrow path for unrecognized conflicts. -/
def cherryPhase (env : BranchEnv) (sha : String) : List Eff × Option String :=
  match env.cherryPick with
  | none => ([Eff.gitCherryPick sha], none)
  | some cpErr =>
    if jsTrim env.diffStdout = bettererResultsPath then
      let f := fixPhase env
      ([Eff.gitCherryPick sha, Eff.gitDiffUnmerged] ++ f.1, f.2)
    else
      ([Eff.gitCherryPick sha, Eff.gitDiffUnmerged, Eff.gitCherryPickAbort],
        some cpErr)

/-- Milestone sync: runs only when a milestone with truthy id is present. -/
def msPhase (env : BranchEnv) (ms : Option Milestone) : List Eff × Option String :=
  match ms with
  | some m =>
    if m.id ≠ 0 then
      ([Eff.updateIssueMilestone env.prNumber m.number], env.milestoneUpdate)
    else ([], none)
  | none => ([], none)

/-- Removal of default reviewers: runs when the create response carries a
`requested_reviewers` field (even an empty list is truthy in JS). -/
def delRevPhase (env : BranchEnv) : List Eff × Option String :=
  match env.requestedReviewers with
  | some rs => ([Eff.deleteReviewReq env.prNumber rs], env.deleteReview)
  | none => ([], none)

/-- Review request for the merging user, when known. -/
def createRevPhase (env : BranchEnv) (mergedBy : Option String) :
    List Eff × Option String :=
  match mergedBy with
  | some u => ([Eff.createReviewReq env.prNumber [u]], env.createReview)
  | none => ([], none)

/-- Label attachment on the new PR: runs only for a non-empty label list. -/
def addLabelsPhase (env : BranchEnv) (labels : List String) :
    List Eff × Option String :=
  if labels.isEmpty then ([], none)
  else ([Eff.addLabelsTo env.prNumber labels], env.addLabelsRes)

/-- The await chain of `backportOnce` after a successful (or auto-resolved)
cherry-pick: push, create the PR, sync the milestone, swap reviewers, attach
labels. -/
def afterPick (env : BranchEnv) (base head title body : String)
    (labelsToAdd : List String) (ms : Option Milestone)
    (mergedBy : Option String) : List Eff × Option String :=
  seqE ([Eff.gitPush head], env.push)
    (seqE ([Eff.createPull base head title body], env.createPR)
      (seqE (msPhase env ms)
        (seqE (delRevPhase env)
          (seqE (createRevPhase env mergedBy)
            (addLabelsPhase env labelsToAdd)))))

/-- `backportOnce` from backport.ts: the per-branch await chain; the first
throwing step stops the chain and its error propagates to the caller. -/
def backportOnce (env : BranchEnv) (base head title body sha : String)
    (labelsToAdd : List String) (ms : Option Milestone)
    (mergedBy : Option String) : List Eff × Option String :=
  seqE (switchPhase env base head)
    (seqE (cherryPhase env sha)
      (afterPick env base head title body labelsToAdd ms mergedBy))

/-- `getFailedBackportCommentBody` from backport.ts, verbatim. -/
def getFailedBackportCommentBody (base commitToBackport errorMessage head :
    String) : String :=
  String.intercalate "\n"
    [ "The backport to `" ++ base ++ "` failed:",
      "```",
      errorMessage,
      "```",
      "To backport manually, run these commands in your terminal:",
      "```bash",
      "# Fetch latest updates from GitHub",
      "git fetch",
      "# Create a new branch",
      "git switch --create " ++ head ++ " origin/" ++ base,
      "# Cherry-pick the merged commit of this pull request and resolve the conflicts",
      "git cherry-pick -x " ++ commitToBackport,
      "# Push it to GitHub",
      "git push --set-upstream origin " ++ head,
      "git switch main",
      "# Remove the local backport branch",
      "git branch -D " ++ head,
      "```",
      "Then, create a pull request where the `base` branch is `" ++ base ++
        "` and the `compare`/`head` branch is `" ++ head ++ "`." ]

/-- The body of the missing-approval-label rejection comment, verbatim from
backport.ts. -/
def missingLabelsCommentBody (sender : String) : String :=
  String.intercalate "\n"
    [ "Hello " ++ "@" ++ sender ++ "!",
      "Backport pull requests need to be either:",
      "* Pull requests which address bugs,",
      "* Urgent fixes which need product approval, in order to get merged,",
      "* Docs changes.\n",
      "Please, if the current pull request addresses a bug fix, label it with the `type/bug` label.",
      "If it already has the product approval, please add the `product-approved` label. For docs changes, please add the `type/docs` label.",
      "If none of the above applies, please consider removing the backport label and target the next major/minor release.",
      "Thanks!" ]

/-- The title templating of the loop body: replace every occurrence of the
base placeholder, then of the original-title placeholder. -/
def mkTitle (titleTemplate base originalTitle : String) : String :=
  jsReplace (jsReplace titleTemplate "\x7b\x7bbase\x7d\x7d" base)
    "\x7b\x7boriginalTitle\x7d\x7d" originalTitle

/-- The body of each created backport PR. -/
def mkBody (sha : String) (prNumber : Nat) : String :=
  "Backport " ++ sha ++ " from #" ++ toString prNumber

/-- The label list passed to the `j`-th (0-based) branch of one invocation:
`labelsToAdd.push(...matchedLabels)` runs inside the loop, so the matched
labels accumulate once per processed branch. -/
def branchLabels (labelsToAdd matched : List String) (j : Nat) : List String :=
  labelsToAdd ++ (List.replicate (j + 1) matched).flatten

/-- One iteration of the per-branch loop: run `backportOnce`, and on a thrown
error post the failure comment and the `backport-failed` label on the
original PR. -/
def branchBlock (env : BranchEnv) (base head : String) (labels : List String)
    (sha : String) (prNumber : Nat) (titleTemplate originalTitle : String)
    (ms : Option Milestone) (mergedBy : Option String) : List Eff :=
  let r := backportOnce env base head (mkTitle titleTemplate base originalTitle)
    (mkBody sha prNumber) sha labels ms mergedBy
  r.1 ++
    match r.2 with
    | none => []
    | some m =>
      [Eff.createComment prNumber (getFailedBackportCommentBody base sha m head),
       Eff.addLabelsTo prNumber ["backport-failed"]]

/-- The per-branch loop of `backport`: `benvs i` gives the external outcomes
of the `i`-th branch attempt, `acc` the mutable `labelsToAdd` array so far
(the matched labels are appended before each branch). -/
def runBranches (benvs : Nat → BranchEnv) (i : Nat) (acc matched : List String)
    (sha : String) (prNumber : Nat) (titleTemplate originalTitle : String)
    (ms : Option Milestone) (mergedBy : Option String) :
    List (String × String) → List Eff
  | [] => []
  | (base, head) :: rest =>
    branchBlock (benvs i) base head (acc ++ matched) sha prNumber titleTemplate
        originalTitle ms mergedBy ++
      runBranches benvs (i + 1) (acc ++ matched) matched sha prNumber
        titleTemplate originalTitle ms mergedBy rest

/-- The webhook payload fields used by `backport`. -/
structure Payload where
  action : String
  label : Option String
  labels : List String
  merged : Bool
  mergeCommitSha : String
  number : Nat
  title : String
  milestone : Option Milestone
  mergedBy : Option String

/-- The part of `backport` after the label-policy block: the merged gate, map
resolution and emptiness gate, clone, and the per-branch loop. -/
def backportRest (labelsToAdd : List String) (p : Payload)
    (titleTemplate : String) (benvs : Nat → BranchEnv)
    (matched : List String) : List Eff :=
  if p.merged = false then []
  else
    let map := getBackportBaseToHead p.action (p.label.getD "") p.labels p.number
    if map = [] then []
    else
      Eff.clone ::
        runBranches benvs 0 labelsToAdd matched p.mergeCommitSha p.number
          titleTemplate p.title p.milestone p.mergedBy map

/-- The exported `backport` function from backport.ts: trigger-label guard,
label policy (rejection comment / marker add / marker removal), then
`backportRest`.  The effect list records every git and GitHub API call. -/
def backport (labelsToAdd : List String) (p : Payload) (titleTemplate : String)
    (sender : String) (benvs : Nat → BranchEnv) : List Eff :=
  let payloadLabel := p.label.getD ""
  if p.action ≠ "closed" ∧
      ¬(labelTest payloadLabel = true ∨ payloadLabel ∈ backportLabels) then []
  else
    let matched := getMatchedBackportLabels p.labels backportLabels
    let anyMatch := p.labels.any labelTest
    if anyMatch = true ∧ matched = [] ∧ missingLabels ∉ p.labels then
      [Eff.createComment p.number (missingLabelsCommentBody sender),
       Eff.addLabelsTo p.number [missingLabels]]
    else if anyMatch = true ∧ matched ≠ [] ∧ missingLabels ∈ p.labels then
      Eff.removeLabelFrom p.number missingLabels ::
        backportRest labelsToAdd p titleTemplate benvs matched
    else
      backportRest labelsToAdd p titleTemplate benvs matched

/-- Effects a `backport` invocation may produce without attempting any
backport: the policy comment and label add/remove calls on the original PR. -/
def isPolicyEff : Eff → Bool
  | Eff.createComment _ _ => true
  | Eff.addLabelsTo _ _ => true
  | Eff.removeLabelFrom _ _ => true
  | _ => false

/-- External side effects of the enterprise branch-sync action. -/
inductive SyncEff
  | getBranch (name : String)
  | createRef (ref sha : String)
  | updateRef (ref sha : String) (force : Bool)
  deriving DecidableEq, Repr

/-- A JavaScript error as distinguished by `createOrUpdateRef`: an octokit
`RequestError` or any other error, each with its message. -/
inductive JsErr
  | reqErr (msg : String)
  | plainErr (msg : String)
  deriving DecidableEq, Repr

/-- Environment of one enterprise-sync run: which branches exist in the target
repository (name to commit sha), and the outcome of the `git.createRef`
call. -/
structure SyncEnv where
  branches : String → Option String
  createRes : Option JsErr

/-- The ref name passed to `git.createRef`. -/
def refNameNew (pr sourceSha branch : String) : String :=
  "refs/heads/prc-" ++ pr ++ "-" ++ sourceSha ++ "/" ++ branch

/-- The ref name passed to `git.updateRef`. -/
def refNameUpd (pr sourceSha branch : String) : String :=
  "heads/prc-" ++ pr ++ "-" ++ sourceSha ++ "/" ++ branch

/-- `createOrUpdateRef` from the EnterpriseCheck action: create the namespaced
ref; on a `RequestError` whose message is `Reference already exists`,
force-update the same ref to the same sha instead; any other error
propagates. -/
def createOrUpdateRef (env : SyncEnv) (prNumber branch sha sourceSha : String) :
    List SyncEff × Option JsErr :=
  match env.createRes with
  | none => ([SyncEff.createRef (refNameNew prNumber sourceSha branch) sha], none)
  | some e =>
    match e with
    | JsErr.reqErr m =>
      if m = "Reference already exists" then
        ([SyncEff.createRef (refNameNew prNumber sourceSha branch) sha,
          SyncEff.updateRef (refNameUpd prNumber sourceSha branch) sha true],
          none)
      else
        ([SyncEff.createRef (refNameNew prNumber sourceSha branch) sha], some e)
    | JsErr.plainErr _ =>
      ([SyncEff.createRef (refNameNew prNumber sourceSha branch) sha], some e)

/-- `EnterpriseCheck.onTriggered`: validate the inputs, resolve the commit to
point the ref at (source branch, else target branch or `main`, else `main`),
and create or update the namespaced ref.  `getBranch` returns `none` both when
the branch is absent and when the lookup errors (the catch only logs). -/
def onTriggered (env : SyncEnv)
    (sourceBranch prNumber sourceSha targetBranchInput : String) :
    List SyncEff × Option JsErr :=
  if sourceBranch = "" then ([], some (JsErr.plainErr "Missing source branch"))
  else if prNumber = "" then ([], some (JsErr.plainErr "Missing OSS PR number"))
  else if sourceSha = "" then
    ([], some (JsErr.plainErr "Missing OSS source SHA"))
  else
    match env.branches sourceBranch with
    | some c =>
      let r := createOrUpdateRef env prNumber sourceBranch c sourceSha
      (SyncEff.getBranch sourceBranch :: r.1, r.2)
    | none =>
      let targetBranch := if targetBranchInput = "" then "main"
        else targetBranchInput
      match env.branches targetBranch with
      | some c =>
        let r := createOrUpdateRef env prNumber sourceBranch c sourceSha
        ([SyncEff.getBranch sourceBranch, SyncEff.getBranch targetBranch] ++
          r.1, r.2)
      | none =>
        match env.branches "main" with
        | some c =>
          let r := createOrUpdateRef env prNumber sourceBranch c sourceSha
          ([SyncEff.getBranch sourceBranch, SyncEff.getBranch targetBranch,
            SyncEff.getBranch "main"] ++ r.1, r.2)
        | none =>
          ([SyncEff.getBranch sourceBranch, SyncEff.getBranch targetBranch,
            SyncEff.getBranch "main"],
            some (JsErr.plainErr "error retrieving main branch"))


/-- A branch environment in which every external call succeeds. -/
def allOkEnv (n : Nat) : BranchEnv :=
  ⟨none, none, none, "", none, none, none, none, none, n, none, none, none,
    none, none⟩

/-- Per-branch environments for concrete runs: branch `i` creates PR `100+i`. -/
def okEnvs : Nat → BranchEnv := fun i => allOkEnv (100 + i)

/-- Environment of a branch whose cherry-pick hits a betterer-only conflict
that the auto-resolution fixes. -/
def bettererOkEnv : BranchEnv :=
  ⟨none, none, some "cherry-pick failed", ".betterer.results\n", none, none,
    none, none, none, 55, none, none, none, none, none⟩

/-- Environment of a branch whose cherry-pick hits a betterer-only conflict
and whose betterer run itself then fails. -/
def bettererFailEnv : BranchEnv :=
  ⟨none, none, some "cherry-pick failed", ".betterer.results\n",
    some "betterer crashed", none, none, none, none, 55, none, none, none,
    none, none⟩

/-- Environment of a branch whose cherry-pick fails with a conflict on a file
other than the snapshot. -/
def otherConflictEnv : BranchEnv :=
  ⟨none, none, some "cherry-pick failed", "src/app.ts\n", none, none, none,
    none, none, 55, none, none, none, none, none⟩

/-- A labeled event whose trigger label is unrelated while the PR carries a
backport label and no approval label. -/
def cexPayloadC3 : Payload :=
  ⟨"labeled", some "random", ["backport v1.0"], true, "abc123", 5, "fix stuff",
    none, none⟩

/-- A labeled event triggered by an approval label on a PR that carries a
backport label, the approval label and the marker label. -/
def cexPayloadC8 : Payload :=
  ⟨"labeled", some "type/bug", ["backport v1.0", "type/bug", "missing-labels"],
    true, "abc123", 5, "fix stuff", none, none⟩

/-- An unmerged closed event with a backport label and an approval label. -/
def unmergedPayload : Payload :=
  ⟨"closed", none, ["backport v1.0", "type/bug"], false, "abc123", 5,
    "fix stuff", none, none⟩

/-- A merged closed event with one approval label and two backport labels. -/
def twoBranchPayload : Payload :=
  ⟨"closed", none, ["type/bug", "backport v1.0", "backport v2.0"], true,
    "abc123", 5, "fix stuff", none, none⟩

/-- A merged closed event with a backport label, no approval label, and the
marker label already present. -/
def markedPayload : Payload :=
  ⟨"closed", none, ["backport v1.0", "missing-labels"], true, "abc123", 5,
    "fix stuff", none, none⟩

/-- A merged closed event with a backport label, no approval label and no
marker label. -/
def rejectPayload : Payload :=
  ⟨"closed", none, ["backport v1.0"], true, "abc123", 5, "fix stuff", none,
    none⟩

/-- A sync environment where only `main` exists and ref creation succeeds. -/
def syncEnvMainOnly : SyncEnv :=
  ⟨fun b => if b = "main" then some "sha-main" else none, none⟩

/-- A sync environment where the source branch exists and the create call
fails because the reference already exists. -/
def syncEnvExisting : SyncEnv :=
  ⟨fun b => if b = "v9.2.x" then some "sha-src" else none,
    some (JsErr.reqErr "Reference already exists")⟩

/-- Environment of a branch whose push fails. -/
def pushFailEnv : BranchEnv :=
  ⟨none, none, none, "", none, none, none, some "push failed", none, 77, none,
    none, none, none, none⟩

/-- Branch environments where the first branch fails at the push and later
branches succeed. -/
def firstFailEnvs : Nat → BranchEnv :=
  fun i => if i = 0 then pushFailEnv else allOkEnv (100 + i)

/-- Every external call of the branch attempt succeeds. -/
def branchOk (env : BranchEnv) : Prop :=
  env.switchBase = none ∧ env.switchCreate = none ∧ env.cherryPick = none ∧
    env.push = none ∧ env.createPR = none ∧ env.milestoneUpdate = none ∧
    env.deleteReview = none ∧ env.createReview = none ∧
    env.addLabelsRes = none

/-! ### Helper lemmas about the label regular expression -/

theorem takeWhile_all_eq {p : Char → Bool} {l : List Char}
    (h : l.all p = true) : l.takeWhile p = l ∧ l.dropWhile p = [] := by
  induction l with
  | nil => simp
  | cons a as ih =>
    simp only [List.all_cons, Bool.and_eq_true] at h
    simp [List.takeWhile_cons, List.dropWhile_cons, h.1, (ih h.2).1, (ih h.2).2]

theorem takeWhile_append_stop (p : Char → Bool) (c : Char) (hc : p c = false) :
    ∀ (l₁ l₂ : List Char), l₁.all p = true →
      (l₁ ++ c :: l₂).takeWhile p = l₁ ∧ (l₁ ++ c :: l₂).dropWhile p = c :: l₂ := by
  intro l₁
  induction l₁ with
  | nil => intro l₂ _; simp [List.takeWhile_cons, List.dropWhile_cons, hc]
  | cons a as ih =>
    intro l₂ h
    simp only [List.all_cons, Bool.and_eq_true] at h
    simp [List.takeWhile_cons, List.dropWhile_cons, h.1, (ih l₂ h.2).1,
      (ih l₂ h.2).2]

theorem matchSuffix_nospace (l : List Char) (hne : l ≠ [])
    (hall : l.all nonSpace = true) : matchSuffix l = some (l, none) := by
  obtain ⟨tw, dw⟩ := takeWhile_all_eq hall
  simp [matchSuffix, tw, dw, hne]

theorem matchSuffix_space (l₁ l₂ : List Char) (h₁ : l₁ ≠ [])
    (h₁s : l₁.all nonSpace = true) (h₂ : l₂ ≠ [])
    (h₂s : l₂.all nonSpace = true) :
    matchSuffix (l₁ ++ ' ' :: l₂) = some (l₁, some l₂) := by
  obtain ⟨tw, dw⟩ := takeWhile_append_stop nonSpace ' ' (by decide) l₁ l₂ h₁s
  simp only [matchSuffix, tw, dw]
  simp [h₁, h₂]
  exact fun x hx => List.all_eq_true.mp h₂s x hx

theorem execLabelRegExp_lit (l : List Char) (r : List Char × Option (List Char))
    (h : matchSuffix l = some r) :
    execLabelRegExp (backportLit ++ l) = some r := by
  have hb : backportLit = ['b', 'a', 'c', 'k', 'p', 'o', 'r', 't', ' '] := by
    decide
  rw [hb]
  show execLabelRegExp
    ('b' :: 'a' :: 'c' :: 'k' :: 'p' :: 'o' :: 'r' :: 't' :: ' ' :: l) = some r
  have htake :
      ('b' :: 'a' :: 'c' :: 'k' :: 'p' :: 'o' :: 'r' :: 't' :: ' ' :: l).take 9 =
        backportLit := by
    rw [hb]
    rfl
  have hdrop :
      ('b' :: 'a' :: 'c' :: 'k' :: 'p' :: 'o' :: 'r' :: 't' :: ' ' :: l).drop 9 =
        l := rfl
  rw [execLabelRegExp, if_pos htake, hdrop, h]

/-! ### C6: head-branch derivation from a backport label -/

/-- C6: for every PR number and well-formed branch names, a label
`backport <base>` with no explicit head resolves to the head
`backport-<N>-to-<base>`, and a label `backport <base> <head>` resolves to
exactly the explicit head. -/
theorem backportLabel_head_resolution (pr : Nat) (base head : String)
    (hb : base.data ≠ []) (hbs : base.data.all nonSpace = true)
    (hh : head.data ≠ []) (hhs : head.data.all nonSpace = true) :
    parseBackportLabel pr ("backport " ++ base) =
      some (base, "backport-" ++ toString pr ++ "-to-" ++ base) ∧
    parseBackportLabel pr ("backport " ++ base ++ " " ++ head) =
      some (base, head) := by
  constructor
  · have hm := matchSuffix_nospace base.data hb hbs
    have he := execLabelRegExp_lit base.data (base.data, none) hm
    have hl : ("backport " ++ base).toList = backportLit ++ base.data := rfl
    unfold parseBackportLabel
    rw [hl, he]
    rfl
  · have hm := matchSuffix_space base.data head.data hb hbs hh hhs
    have he := execLabelRegExp_lit (base.data ++ ' ' :: head.data)
      (base.data, some head.data) hm
    have hl : ("backport " ++ base ++ " " ++ head).toList =
        backportLit ++ (base.data ++ ' ' :: head.data) := by
      show ("backport " ++ base ++ " " ++ head).data = _
      simp [String.data_append, backportLit, List.append_assoc]
    unfold parseBackportLabel
    rw [hl, he]

/-- Witness for C6 at PR 72, base `release-9.2`, head `custom-head`. -/
theorem backportLabel_head_resolution_witness :
    parseBackportLabel 72 ("backport " ++ "release-9.2") =
      some ("release-9.2", "backport-" ++ toString 72 ++ "-to-" ++ "release-9.2") ∧
    parseBackportLabel 72 ("backport " ++ "release-9.2" ++ " " ++ "custom-head") =
      some ("release-9.2", "custom-head") :=
  backportLabel_head_resolution 72 "release-9.2" "custom-head" (by decide)
    (by decide) (by decide) (by decide)

/-! ### C1: the backport map resolved from an event -/

theorem lookupMap_upsert (m : List (String × String)) (k v b : String) :
    lookupMap (upsert m k v) b = if k = b then some v else lookupMap m b := by
  induction m with
  | nil => by_cases hb : k = b <;> simp [upsert, lookupMap, hb]
  | cons q rest ih =>
    obtain ⟨k₁, v₁⟩ := q
    by_cases hk : k₁ = k
    · subst hk
      by_cases hb : k₁ = b <;> simp [upsert, lookupMap, hb]
    · by_cases hb : k₁ = b
      · subst hb
        have : ¬k = k₁ := fun h => hk h.symm
        simp [upsert, lookupMap, hk, this]
      · simp [upsert, lookupMap, hk, hb, ih]

theorem lookup_foldl_insLabel (pr : Nat) (b : String) :
    ∀ (names : List String) (m : List (String × String)),
      lookupMap (names.foldl (insLabel pr) m) b =
        match lastHeadFor pr b names with
        | some h => some h
        | none => lookupMap m b := by
  intro names
  induction names with
  | nil => intro m; simp [lastHeadFor]
  | cons n rest ih =>
    intro m
    simp only [List.foldl_cons]
    rw [ih]
    cases hrest : lastHeadFor pr b rest with
    | some h => simp [lastHeadFor, hrest]
    | none =>
      simp only [lastHeadFor, hrest]
      unfold insLabel
      cases hp : parseBackportLabel pr n with
      | none => rfl
      | some q =>
        rw [lookupMap_upsert]
        by_cases hq : q.1 = b <;> simp [hq]

/-- C1: resolving the backport map for a `closed` action considers every label
on the PR, keying each matching label by its base capture with the last
matching label for a base winning (stated through lookup); for a `labeled`
action only the single added label is considered; any other action yields the
empty map. -/
theorem resolveBackportMap_cases (label : String) (labels : List String)
    (pr : Nat) (b : String) :
    (lookupMap (getBackportBaseToHead "closed" label labels pr) b =
      lastHeadFor pr b labels) ∧
    (getBackportBaseToHead "labeled" label labels pr =
      match parseBackportLabel pr label with
      | some q => [q]
      | none => []) ∧
    (∀ a : String, a ≠ "closed" → a ≠ "labeled" →
      getBackportBaseToHead a label labels pr = []) := by
  refine ⟨?_, ?_, ?_⟩
  · rw [getBackportBaseToHead]
    have hn : getLabelNames "closed" label labels = labels := by
      simp [getLabelNames]
    rw [hn, lookup_foldl_insLabel]
    cases h : lastHeadFor pr b labels <;> simp [lookupMap]
  · have hn : getLabelNames "labeled" label labels = [label] := by
      simp [getLabelNames]
    rw [getBackportBaseToHead, hn]
    cases hp : parseBackportLabel pr label <;>
      simp [insLabel, upsert, hp]
  · intro a ha hb2
    rw [getBackportBaseToHead]
    have hn : getLabelNames a label labels = [] := by
      simp [getLabelNames, ha, hb2]
    rw [hn]
    rfl

/-- Witness for C1: lookup on a closed event with two labels for the same
base, and the empty map of an `opened` action. -/
theorem resolveBackportMap_cases_witness :
    (lookupMap
        (getBackportBaseToHead "closed" "" ["backport v1 h1", "backport v1 h2"] 3)
        "v1" =
      lastHeadFor 3 "v1" ["backport v1 h1", "backport v1 h2"]) ∧
    getBackportBaseToHead "opened" "x" ["backport v1"] 3 = [] :=
  ⟨(resolveBackportMap_cases "" ["backport v1 h1", "backport v1 h2"] 3 "v1").1,
    (resolveBackportMap_cases "x" ["backport v1"] 3 "v1").2.2 "opened"
      (by decide) (by decide)⟩

/-! ### C2: the betterer auto-resolution policy of failed cherry-picks -/

theorem seqE_none (e : List Eff) (b : List Eff × Option String) :
    seqE (e, none) b = (e ++ b.1, b.2) := rfl

theorem seqE_some (e : List Eff) (m : String) (b : List Eff × Option String) :
    seqE (e, some m) b = (e, some m) := rfl

theorem mem_seqE {x : Eff} {a b : List Eff × Option String}
    (h : x ∈ (seqE a b).1) : x ∈ a.1 ∨ x ∈ b.1 := by
  obtain ⟨e, o⟩ := a
  cases o with
  | none => simpa [seqE] using h
  | some m => exact Or.inl (by simpa [seqE] using h)

/-- Shape of every effect the after-pick chain can produce. -/
theorem afterPick_mem (env : BranchEnv) (base head title body : String)
    (labelsToAdd : List String) (ms : Option Milestone)
    (mergedBy : Option String) (x : Eff)
    (h : x ∈ (afterPick env base head title body labelsToAdd ms mergedBy).1) :
    x = Eff.gitPush head ∨ x = Eff.createPull base head title body ∨
    (∃ n k, x = Eff.updateIssueMilestone n k) ∨
    (∃ n rs, x = Eff.deleteReviewReq n rs) ∨
    (∃ n rs, x = Eff.createReviewReq n rs) ∨
    (∃ n ls, x = Eff.addLabelsTo n ls) := by
  unfold afterPick at h
  rcases mem_seqE h with h | h
  · exact Or.inl (by simpa using h)
  rcases mem_seqE h with h | h
  · exact Or.inr (Or.inl (by simpa using h))
  rcases mem_seqE h with h | h
  · refine Or.inr (Or.inr (Or.inl ?_))
    rcases ms with _ | m
    · simp [msPhase] at h
    · by_cases hid : m.id = 0
      · simp [msPhase, hid] at h
      · simp [msPhase, hid] at h
        exact ⟨env.prNumber, m.number, h⟩
  rcases mem_seqE h with h | h
  · refine Or.inr (Or.inr (Or.inr (Or.inl ?_)))
    unfold delRevPhase at h
    rcases hrr : env.requestedReviewers with _ | rs <;> rw [hrr] at h
    · simp at h
    · exact ⟨env.prNumber, rs, by simpa using h⟩
  rcases mem_seqE h with h | h
  · refine Or.inr (Or.inr (Or.inr (Or.inr (Or.inl ?_))))
    unfold createRevPhase at h
    rcases mergedBy with _ | u
    · simp at h
    · exact ⟨env.prNumber, [u], by simpa using h⟩
  · refine Or.inr (Or.inr (Or.inr (Or.inr (Or.inr ?_))))
    unfold addLabelsPhase at h
    by_cases he : labelsToAdd.isEmpty
    · simp [he] at h
    · simp only [he, if_false, Bool.false_eq_true] at h
      exact ⟨env.prNumber, labelsToAdd, by simpa using h⟩

theorem afterPick_no_abort (env : BranchEnv) (base head title body : String)
    (labelsToAdd : List String) (ms : Option Milestone)
    (mergedBy : Option String) :
    Eff.gitCherryPickAbort ∉
      (afterPick env base head title body labelsToAdd ms mergedBy).1 := by
  intro h
  rcases afterPick_mem env base head title body labelsToAdd ms mergedBy _ h with
    h | h | ⟨n, k, h⟩ | ⟨n, rs, h⟩ | ⟨n, rs, h⟩ | ⟨n, ls, h⟩ <;> simp at h

/-- C2 (amended): given that the cherry-pick of a branch failed, the betterer
auto-resolution runs if and only if the trimmed output of
`git diff --name-only --diff-filter=U` is exactly the snapshot path; when it
runs and all three resolution steps succeed, the snapshot file is staged and
the cherry-pick is continued non-interactively with no abort; for any other
conflict the cherry-pick is aborted, the original cherry-pick error surfaces
and no PR is created for the branch; and when the auto-resolution itself
fails, the cherry-pick is aborted and the failing resolution step's own error
(not the original cherry-pick error) surfaces, again with no PR created. -/
theorem betterer_conflict_policy (env : BranchEnv)
    (base head title body sha : String) (labelsToAdd : List String)
    (ms : Option Milestone) (mergedBy : Option String) (cpErr : String)
    (hsw : env.switchBase = none) (hsc : env.switchCreate = none)
    (hcp : env.cherryPick = some cpErr) :
    ∀ r, r = backportOnce env base head title body sha labelsToAdd ms mergedBy →
    ((Eff.bettererUpdate ∈ r.1) ↔ jsTrim env.diffStdout = bettererResultsPath) ∧
    (jsTrim env.diffStdout = bettererResultsPath → env.bettererRun = none →
      env.gitAdd = none → env.cpContinue = none →
      Eff.gitAddFile bettererResultsPath ∈ r.1 ∧
      Eff.gitCherryPickContinue ∈ r.1 ∧ Eff.gitCherryPickAbort ∉ r.1) ∧
    (jsTrim env.diffStdout ≠ bettererResultsPath →
      r.2 = some cpErr ∧ Eff.gitCherryPickAbort ∈ r.1 ∧
      ∀ b h t bo, Eff.createPull b h t bo ∉ r.1) ∧
    (jsTrim env.diffStdout = bettererResultsPath → ∀ m,
      (env.bettererRun = some m ∨
        (env.bettererRun = none ∧ env.gitAdd = some m) ∨
        (env.bettererRun = none ∧ env.gitAdd = none ∧
          env.cpContinue = some m)) →
      r.2 = some m ∧ Eff.gitCherryPickAbort ∈ r.1 ∧
      ∀ b h t bo, Eff.createPull b h t bo ∉ r.1) := by
  intro r hrdef
  have hsp : switchPhase env base head =
      ([Eff.gitSwitch base, Eff.gitSwitchCreate head], none) := by
    rw [switchPhase, hsw, hsc]
    rfl
  by_cases hbc : jsTrim env.diffStdout = bettererResultsPath
  · cases hbr : env.bettererRun with
    | some m₀ =>
      have hfix : fixPhase env =
          ([Eff.bettererUpdate, Eff.gitCherryPickAbort], some m₀) := by
        unfold fixPhase
        rw [hbr]
      have hch : cherryPhase env sha =
          ([Eff.gitCherryPick sha, Eff.gitDiffUnmerged, Eff.bettererUpdate,
            Eff.gitCherryPickAbort], some m₀) := by
        simp only [cherryPhase, hcp]
        rw [if_pos hbc, hfix]; rfl
      have hr : r =
          ([Eff.gitSwitch base, Eff.gitSwitchCreate head,
            Eff.gitCherryPick sha, Eff.gitDiffUnmerged, Eff.bettererUpdate,
            Eff.gitCherryPickAbort], some m₀) := by
        rw [hrdef]
        unfold backportOnce
        rw [hsp, hch]
        rfl
      refine ⟨?_, ?_, ?_, ?_⟩
      · simp [hr, hbc]
      · intro _ h2 _ _
        exact Option.noConfusion h2
      · intro h
        exact absurd hbc h
      · intro _ m hm
        rcases hm with h | ⟨h1, _⟩ | ⟨h1, _, _⟩
        · injection h with h
          subst h
          refine ⟨by simp [hr], by simp [hr], ?_⟩
          intro b h t bo
          simp [hr]
        · exact Option.noConfusion h1
        · exact Option.noConfusion h1
    | none =>
      cases hga : env.gitAdd with
      | some m₀ =>
        have hfix : fixPhase env =
            ([Eff.bettererUpdate, Eff.gitAddFile bettererResultsPath,
              Eff.gitCherryPickAbort], some m₀) := by
          unfold fixPhase
          rw [hbr, hga]
        have hch : cherryPhase env sha =
            ([Eff.gitCherryPick sha, Eff.gitDiffUnmerged, Eff.bettererUpdate,
              Eff.gitAddFile bettererResultsPath, Eff.gitCherryPickAbort],
              some m₀) := by
          simp only [cherryPhase, hcp]
          rw [if_pos hbc, hfix]; rfl
        have hr : r =
            ([Eff.gitSwitch base, Eff.gitSwitchCreate head,
              Eff.gitCherryPick sha, Eff.gitDiffUnmerged, Eff.bettererUpdate,
              Eff.gitAddFile bettererResultsPath, Eff.gitCherryPickAbort],
              some m₀) := by
          rw [hrdef]
          unfold backportOnce
          rw [hsp, hch]
          rfl
        refine ⟨?_, ?_, ?_, ?_⟩
        · simp [hr, hbc]
        · intro _ _ h3 _
          exact Option.noConfusion h3
        · intro h
          exact absurd hbc h
        · intro _ m hm
          rcases hm with h | ⟨_, h2⟩ | ⟨_, h2, _⟩
          · exact Option.noConfusion h
          · injection h2 with h2
            subst h2
            refine ⟨by simp [hr], by simp [hr], ?_⟩
            intro b h t bo
            simp [hr]
          · exact Option.noConfusion h2
      | none =>
        cases hcc : env.cpContinue with
        | some m₀ =>
          have hfix : fixPhase env =
              ([Eff.bettererUpdate, Eff.gitAddFile bettererResultsPath,
                Eff.gitCherryPickContinue, Eff.gitCherryPickAbort],
                some m₀) := by
            unfold fixPhase
            rw [hbr, hga, hcc]
          have hch : cherryPhase env sha =
              ([Eff.gitCherryPick sha, Eff.gitDiffUnmerged,
                Eff.bettererUpdate, Eff.gitAddFile bettererResultsPath,
                Eff.gitCherryPickContinue, Eff.gitCherryPickAbort],
                some m₀) := by
            simp only [cherryPhase, hcp]
            rw [if_pos hbc, hfix]; rfl
          have hr : r =
              ([Eff.gitSwitch base, Eff.gitSwitchCreate head,
                Eff.gitCherryPick sha, Eff.gitDiffUnmerged,
                Eff.bettererUpdate, Eff.gitAddFile bettererResultsPath,
                Eff.gitCherryPickContinue, Eff.gitCherryPickAbort],
                some m₀) := by
            rw [hrdef]
            unfold backportOnce
            rw [hsp, hch]
            rfl
          refine ⟨?_, ?_, ?_, ?_⟩
          · simp [hr, hbc]
          · intro _ _ _ h4
            exact Option.noConfusion h4
          · intro h
            exact absurd hbc h
          · intro _ m hm
            rcases hm with h | ⟨_, h2⟩ | ⟨_, _, h3⟩
            · exact Option.noConfusion h
            · exact Option.noConfusion h2
            · injection h3 with h3
              subst h3
              refine ⟨by simp [hr], by simp [hr], ?_⟩
              intro b h t bo
              simp [hr]
        | none =>
          have hfix : fixPhase env =
              ([Eff.bettererUpdate, Eff.gitAddFile bettererResultsPath,
                Eff.gitCherryPickContinue], none) := by
            unfold fixPhase
            rw [hbr, hga, hcc]
          have hch : cherryPhase env sha =
              ([Eff.gitCherryPick sha, Eff.gitDiffUnmerged,
                Eff.bettererUpdate, Eff.gitAddFile bettererResultsPath,
                Eff.gitCherryPickContinue], none) := by
            simp only [cherryPhase, hcp]
            rw [if_pos hbc, hfix]; rfl
          have hr : r =
              ([Eff.gitSwitch base, Eff.gitSwitchCreate head,
                Eff.gitCherryPick sha, Eff.gitDiffUnmerged,
                Eff.bettererUpdate, Eff.gitAddFile bettererResultsPath,
                Eff.gitCherryPickContinue] ++
                  (afterPick env base head title body labelsToAdd ms
                    mergedBy).1,
                (afterPick env base head title body labelsToAdd ms
                  mergedBy).2) := by
            rw [hrdef]
            unfold backportOnce
            rw [hsp, hch]
            rfl
          refine ⟨?_, ?_, ?_, ?_⟩
          · simp [hr, hbc]
          · intro _ _ _ _
            refine ⟨by simp [hr], by simp [hr], ?_⟩
            rw [hr]
            intro hmem
            rcases List.mem_append.mp hmem with hmem | hmem
            · simp at hmem
            · exact afterPick_no_abort env base head title body labelsToAdd
                ms mergedBy hmem
          · intro h
            exact absurd hbc h
          · intro _ m hm
            rcases hm with h | ⟨_, h2⟩ | ⟨_, _, h3⟩
            · exact Option.noConfusion h
            · exact Option.noConfusion h2
            · exact Option.noConfusion h3
  · have hch : cherryPhase env sha =
        ([Eff.gitCherryPick sha, Eff.gitDiffUnmerged, Eff.gitCherryPickAbort],
          some cpErr) := by
      simp only [cherryPhase, hcp]
      rw [if_neg hbc]
    have hr : r =
        ([Eff.gitSwitch base, Eff.gitSwitchCreate head, Eff.gitCherryPick sha,
          Eff.gitDiffUnmerged, Eff.gitCherryPickAbort], some cpErr) := by
      rw [hrdef]
      unfold backportOnce
      rw [hsp, hch]
      rfl
    refine ⟨?_, ?_, ?_, ?_⟩
    · simp [hr, hbc]
    · intro h
      exact absurd h hbc
    · intro _
      refine ⟨by simp [hr], by simp [hr], ?_⟩
      intro b h t bo
      simp [hr]
    · intro h
      exact absurd h hbc

/-- Witness for C2 at the betterer-conflict environment whose resolution
succeeds: the snapshot is staged and the cherry-pick continued, no abort. -/
theorem betterer_conflict_policy_witness :
    Eff.gitAddFile bettererResultsPath ∈
      (backportOnce bettererOkEnv "v1" "h1" "t" "b" "sha" [] none none).1 ∧
    Eff.gitCherryPickContinue ∈
      (backportOnce bettererOkEnv "v1" "h1" "t" "b" "sha" [] none none).1 ∧
    Eff.gitCherryPickAbort ∉
      (backportOnce bettererOkEnv "v1" "h1" "t" "b" "sha" [] none none).1 := by
  have h := betterer_conflict_policy bettererOkEnv "v1" "h1" "t" "b" "sha" []
    none none "cherry-pick failed" rfl rfl rfl
    (backportOnce bettererOkEnv "v1" "h1" "t" "b" "sha" [] none none) rfl
  exact h.2.1 (by decide) rfl rfl rfl

/-- Counterexample to C2 as stated: when the auto-resolution itself fails, the
surfaced error is the failing resolution step's error, not the original
cherry-pick error (the inner catch parameter shadows the outer one in
backport.ts, lines 119 and 123). -/
theorem betterer_rethrow_cex :
    (backportOnce bettererFailEnv "v1" "h1" "t" "b" "sha" [] none none).2 =
      some "betterer crashed" ∧
    ¬(backportOnce bettererFailEnv "v1" "h1" "t" "b" "sha" [] none none).2 =
      some "cherry-pick failed" := by
  exact ⟨by decide, by decide⟩

/-! ### C3: the missing-approval-label policy -/

/-- Counterexample to C3 as stated: a `labeled` event whose trigger label is
unrelated returns at the trigger guard, so no rejection comment is posted and
no marker added even though the PR carries a backport-pattern label, no
approval label, and no marker. -/
theorem missing_label_policy_cex :
    labelTest "backport v1.0" = true ∧
    "backport v1.0" ∈ cexPayloadC3.labels ∧
    getMatchedBackportLabels cexPayloadC3.labels backportLabels = [] ∧
    missingLabels ∉ cexPayloadC3.labels ∧
    backport [] cexPayloadC3 "tt" "alice" okEnvs = [] := by
  exact ⟨by decide, by decide, by decide, by decide, by decide⟩

/-- C3 (amended): for every event that passes the trigger-label guard (action
`closed`, or the added label matches the backport pattern or is an approval
label) and whose label set contains a backport-pattern label: with no approval
label matched and the marker absent, the invocation posts the rejection
comment, adds the marker label, and performs nothing else; with an approval
label matched and the marker present, the invocation removes the marker and
proceeds with the rest of the backport flow. -/
theorem missing_label_policy (labelsToAdd : List String) (p : Payload)
    (tt sender : String) (benvs : Nat → BranchEnv)
    (hguard : p.action = "closed" ∨ labelTest (p.label.getD "") = true ∨
      (p.label.getD "") ∈ backportLabels)
    (hmatch : p.labels.any labelTest = true) :
    (getMatchedBackportLabels p.labels backportLabels = [] →
      missingLabels ∉ p.labels →
      backport labelsToAdd p tt sender benvs =
        [Eff.createComment p.number (missingLabelsCommentBody sender),
         Eff.addLabelsTo p.number [missingLabels]]) ∧
    (getMatchedBackportLabels p.labels backportLabels ≠ [] →
      missingLabels ∈ p.labels →
      backport labelsToAdd p tt sender benvs =
        Eff.removeLabelFrom p.number missingLabels ::
          backportRest labelsToAdd p tt benvs
            (getMatchedBackportLabels p.labels backportLabels)) := by
  have hguard2 : ¬(p.action ≠ "closed" ∧
      ¬(labelTest (p.label.getD "") = true ∨
        (p.label.getD "") ∈ backportLabels)) := by
    rcases hguard with h | h | h
    · exact fun hc => hc.1 h
    · exact fun hc => hc.2 (Or.inl h)
    · exact fun hc => hc.2 (Or.inr h)
  constructor
  · intro hm hml
    simp only [backport]
    rw [if_neg hguard2, if_pos ⟨hmatch, hm, hml⟩]
  · intro hm hml
    have hneg : ¬(p.labels.any labelTest = true ∧
        getMatchedBackportLabels p.labels backportLabels = [] ∧
        missingLabels ∉ p.labels) := fun hc => hm hc.2.1
    simp only [backport]
    rw [if_neg hguard2, if_neg hneg, if_pos ⟨hmatch, hm, hml⟩]

/-- Witness for C3 (amended) at two concrete events: a rejection and a
marker-removal followed by the backport flow. -/
theorem missing_label_policy_witness :
    backport [] rejectPayload "tt" "alice" okEnvs =
      [Eff.createComment 5 (missingLabelsCommentBody "alice"),
       Eff.addLabelsTo 5 [missingLabels]] ∧
    backport [] cexPayloadC8 "tt" "alice" okEnvs =
      Eff.removeLabelFrom 5 missingLabels ::
        backportRest [] cexPayloadC8 "tt" okEnvs
          (getMatchedBackportLabels cexPayloadC8.labels backportLabels) :=
  ⟨(missing_label_policy [] rejectPayload "tt" "alice" okEnvs (Or.inl rfl)
      (by decide)).1 (by decide) (by decide),
   (missing_label_policy [] cexPayloadC8 "tt" "alice" okEnvs
      (Or.inr (Or.inr (by decide))) (by decide)).2 (by decide) (by decide)⟩

/-! ### C7, C8: gates that suppress the backport execution -/

theorem backport_all_policy_of_rest_nil (labelsToAdd : List String)
    (p : Payload) (tt sender : String) (benvs : Nat → BranchEnv)
    (hrest : backportRest labelsToAdd p tt benvs
      (getMatchedBackportLabels p.labels backportLabels) = []) :
    (backport labelsToAdd p tt sender benvs).all isPolicyEff = true := by
  by_cases h1 : p.action ≠ "closed" ∧
      ¬(labelTest (p.label.getD "") = true ∨
        (p.label.getD "") ∈ backportLabels)
  · simp only [backport]
    rw [if_pos h1]
    rfl
  · by_cases h2 : p.labels.any labelTest = true ∧
        getMatchedBackportLabels p.labels backportLabels = [] ∧
        missingLabels ∉ p.labels
    · simp only [backport]
      rw [if_neg h1, if_pos h2]
      rfl
    · by_cases h3 : p.labels.any labelTest = true ∧
          getMatchedBackportLabels p.labels backportLabels ≠ [] ∧
          missingLabels ∈ p.labels
      · simp only [backport]
        rw [if_neg h1, if_neg h2, if_pos h3, hrest]
        rfl
      · simp only [backport]
        rw [if_neg h1, if_neg h2, if_neg h3, hrest]
        rfl

/-- C7: for an event whose pull request is not merged, no backport is
attempted regardless of labels — every effect of the invocation is one of the
policy calls on the original PR (comment, label add/remove); in particular no
clone, no git operation, and no PR creation occurs. -/
theorem unmerged_no_backport (labelsToAdd : List String) (p : Payload)
    (tt sender : String) (benvs : Nat → BranchEnv)
    (hm : p.merged = false) :
    (backport labelsToAdd p tt sender benvs).all isPolicyEff = true := by
  apply backport_all_policy_of_rest_nil
  simp only [backportRest]
  rw [if_pos hm]

/-- Witness for C7 at a concrete unmerged payload. -/
theorem unmerged_no_backport_witness :
    unmergedPayload.merged = false ∧
    (backport [] unmergedPayload "tt" "alice" okEnvs).all isPolicyEff = true :=
  ⟨rfl, unmerged_no_backport [] unmergedPayload "tt" "alice" okEnvs rfl⟩

/-- Counterexample to C8 as stated: an invocation whose resolved backport map
is empty can still perform a GitHub API side effect — here the removal of the
marker label happens before the map-emptiness gate. -/
theorem empty_map_cex :
    getBackportBaseToHead cexPayloadC8.action (cexPayloadC8.label.getD "")
      cexPayloadC8.labels cexPayloadC8.number = [] ∧
    backport [] cexPayloadC8 "tt" "alice" okEnvs =
      [Eff.removeLabelFrom 5 missingLabels] := by
  exact ⟨by decide, by decide⟩

/-- C8 (amended): when the resolved backport map is empty, no backport is
executed — every effect of the invocation is one of the earlier
authorization-policy calls on the original PR (comment, marker add/remove);
no clone, git operation, or PR creation occurs. -/
theorem empty_map_no_exec (labelsToAdd : List String) (p : Payload)
    (tt sender : String) (benvs : Nat → BranchEnv)
    (hmap : getBackportBaseToHead p.action (p.label.getD "") p.labels
      p.number = []) :
    (backport labelsToAdd p tt sender benvs).all isPolicyEff = true := by
  apply backport_all_policy_of_rest_nil
  simp only [backportRest]
  by_cases hm : p.merged = false
  · rw [if_pos hm]
  · rw [if_neg hm, if_pos hmap]

/-- Witness for C8 (amended) at a concrete payload with an empty map. -/
theorem empty_map_no_exec_witness :
    getBackportBaseToHead cexPayloadC8.action (cexPayloadC8.label.getD "")
      cexPayloadC8.labels cexPayloadC8.number = [] ∧
    (backport [] cexPayloadC8 "tt" "alice" okEnvs).all isPolicyEff = true :=
  ⟨by decide, empty_map_no_exec [] cexPayloadC8 "tt" "alice" okEnvs (by decide)⟩

/-! ### C10: marker present, approval still absent -/

theorem parse_ne_none_of_test (pr : Nat) (n : String)
    (h : labelTest n = true) : parseBackportLabel pr n ≠ none := by
  unfold labelTest at h
  unfold parseBackportLabel
  cases hex : execLabelRegExp n.toList with
  | none => rw [hex] at h; cases h
  | some q => obtain ⟨b, hd⟩ := q; simp

theorem upsert_ne_nil (m : List (String × String)) (k v : String) :
    upsert m k v ≠ [] := by
  cases m with
  | nil => simp [upsert]
  | cons q rest =>
    obtain ⟨k₁, v₁⟩ := q
    by_cases h : k₁ = k <;> simp [upsert, h]

theorem foldl_insLabel_ne_nil (pr : Nat) :
    ∀ (names : List String) (m : List (String × String)), m ≠ [] →
      names.foldl (insLabel pr) m ≠ [] := by
  intro names
  induction names with
  | nil => intro m h; simpa
  | cons n rest ih =>
    intro m h
    simp only [List.foldl_cons]
    apply ih
    unfold insLabel
    cases hp : parseBackportLabel pr n with
    | none => exact h
    | some q => exact upsert_ne_nil m q.1 q.2

theorem foldl_insLabel_ne_nil_of_match (pr : Nat) :
    ∀ (names : List String) (m : List (String × String)),
      (∃ n ∈ names, labelTest n = true) →
      names.foldl (insLabel pr) m ≠ [] := by
  intro names
  induction names with
  | nil =>
    rintro m ⟨n, hn, _⟩
    cases hn
  | cons n rest ih =>
    rintro m ⟨x, hx, htest⟩
    simp only [List.foldl_cons]
    rcases List.mem_cons.mp hx with rfl | hx
    · apply foldl_insLabel_ne_nil
      unfold insLabel
      cases hpp : parseBackportLabel pr x with
      | none => exact absurd hpp (parse_ne_none_of_test pr x htest)
      | some q => exact upsert_ne_nil m q.1 q.2
    · exact ih _ ⟨x, hx, htest⟩

/-- C10: a merged `closed` event whose label set contains a backport-pattern
label, no approval label, and the marker label already present does not
re-post the rejection comment; the invocation proceeds to execute the
backport: the trace is exactly the clone followed by the per-branch loop, and
in particular contains the clone. -/
theorem marker_set_proceeds (labelsToAdd : List String) (p : Payload)
    (tt sender : String) (benvs : Nat → BranchEnv)
    (hact : p.action = "closed") (hm : p.merged = true)
    (hmatch : p.labels.any labelTest = true)
    (hnoappr : getMatchedBackportLabels p.labels backportLabels = [])
    (hmark : missingLabels ∈ p.labels) :
    backport labelsToAdd p tt sender benvs =
      Eff.clone ::
        runBranches benvs 0 labelsToAdd [] p.mergeCommitSha p.number tt
          p.title p.milestone p.mergedBy
          (getBackportBaseToHead p.action (p.label.getD "") p.labels
            p.number) ∧
    Eff.clone ∈ backport labelsToAdd p tt sender benvs := by
  have hmapne : getBackportBaseToHead p.action (p.label.getD "") p.labels
      p.number ≠ [] := by
    rw [hact, getBackportBaseToHead]
    have hn : getLabelNames "closed" (p.label.getD "") p.labels = p.labels := by
      simp [getLabelNames]
    rw [hn]
    obtain ⟨x, hx, ht⟩ := List.any_eq_true.mp hmatch
    exact foldl_insLabel_ne_nil_of_match p.number p.labels [] ⟨x, hx, ht⟩
  have h1 : ¬(p.action ≠ "closed" ∧
      ¬(labelTest (p.label.getD "") = true ∨
        (p.label.getD "") ∈ backportLabels)) := fun hc => hc.1 hact
  have h2 : ¬(p.labels.any labelTest = true ∧
      getMatchedBackportLabels p.labels backportLabels = [] ∧
      missingLabels ∉ p.labels) := fun hc => hc.2.2 hmark
  have h3 : ¬(p.labels.any labelTest = true ∧
      getMatchedBackportLabels p.labels backportLabels ≠ [] ∧
      missingLabels ∈ p.labels) := fun hc => hc.2.1 hnoappr
  have htrace : backport labelsToAdd p tt sender benvs =
      Eff.clone ::
        runBranches benvs 0 labelsToAdd [] p.mergeCommitSha p.number tt
          p.title p.milestone p.mergedBy
          (getBackportBaseToHead p.action (p.label.getD "") p.labels
            p.number) := by
    simp only [backport]
    rw [if_neg h1, if_neg h2, if_neg h3, hnoappr]
    simp only [backportRest]
    rw [if_neg (by simp [hm]), if_neg hmapne]
  exact ⟨htrace, by rw [htrace]; exact List.mem_cons_self _ _⟩

/-- Witness for C10 at a concrete marked payload. -/
theorem marker_set_proceeds_witness :
    Eff.clone ∈ backport [] markedPayload "tt" "alice" okEnvs :=
  (marker_set_proceeds [] markedPayload "tt" "alice" okEnvs rfl rfl
    (by decide) (by decide) (by decide)).2

/-! ### C4, C9: the per-branch loop -/

theorem mem_seqE_left {x : Eff} {a b : List Eff × Option String}
    (h : x ∈ a.1) : x ∈ (seqE a b).1 := by
  obtain ⟨e, o⟩ := a
  cases o with
  | none => exact List.mem_append_left _ h
  | some m => exact h

theorem mem_seqE_right {x : Eff} {a b : List Eff × Option String}
    (ha : a.2 = none) (h : x ∈ b.1) : x ∈ (seqE a b).1 := by
  obtain ⟨e, o⟩ := a
  cases o with
  | none => exact List.mem_append_right _ h
  | some m => cases ha

theorem seqE_snd_none {a b : List Eff × Option String} (ha : a.2 = none) :
    (seqE a b).2 = b.2 := by
  obtain ⟨e, o⟩ := a
  cases o with
  | none => rfl
  | some m => cases ha

theorem gitSwitch_mem_backportOnce (env : BranchEnv)
    (base head title body sha : String) (labels : List String)
    (ms : Option Milestone) (mb : Option String) :
    Eff.gitSwitch base ∈
      (backportOnce env base head title body sha labels ms mb).1 := by
  unfold backportOnce
  apply mem_seqE_left
  unfold switchPhase
  apply mem_seqE_left
  exact List.mem_cons_self _ _

theorem gitSwitch_mem_branchBlock (env : BranchEnv) (base head : String)
    (labels : List String) (sha : String) (prN : Nat) (tt ot : String)
    (ms : Option Milestone) (mb : Option String) :
    Eff.gitSwitch base ∈
      branchBlock env base head labels sha prN tt ot ms mb := by
  unfold branchBlock
  exact List.mem_append_left _
    (gitSwitch_mem_backportOnce env base head _ _ sha labels ms mb)

/-- Decomposition of the per-branch loop around its `j`-th iteration,
exhibiting the accumulated label list passed to that iteration. -/
theorem runBranches_decomp (benvs : Nat → BranchEnv) (matched : List String)
    (sha : String) (prN : Nat) (tt ot : String) (ms : Option Milestone)
    (mb : Option String) :
    ∀ (entries : List (String × String)) (j : Nat) (hj : j < entries.length)
      (i : Nat) (acc : List String),
      ∃ pre post,
        runBranches benvs i acc matched sha prN tt ot ms mb entries =
          pre ++
            branchBlock (benvs (i + j)) (entries.get ⟨j, hj⟩).1
              (entries.get ⟨j, hj⟩).2
              (acc ++ (List.replicate (j + 1) matched).flatten) sha prN tt ot
              ms mb ++ post := by
  intro entries
  induction entries with
  | nil =>
    intro j hj
    exact absurd hj (Nat.not_lt_zero j)
  | cons e rest ih =>
    intro j hj i acc
    obtain ⟨base, head⟩ := e
    cases j with
    | zero =>
      refine ⟨[], runBranches benvs (i + 1) (acc ++ matched) matched sha prN
        tt ot ms mb rest, ?_⟩
      simp only [runBranches, List.nil_append, Nat.add_zero, List.get]
      simp [List.replicate, List.flatten]
    | succ k =>
      have hk : k < rest.length := Nat.lt_of_succ_lt_succ hj
      obtain ⟨pre, post, hpp⟩ := ih k hk (i + 1) (acc ++ matched)
      refine ⟨branchBlock (benvs i) base head (acc ++ matched) sha prN tt ot
        ms mb ++ pre, post, ?_⟩
      simp only [runBranches]
      rw [hpp]
      simp only [List.get, Nat.succ_add, Nat.add_succ, Nat.add_zero]
      simp [List.append_assoc, List.replicate_succ, List.flatten_cons]

/-- C4: for a backport map with at least two entries, an error thrown during
one branch's backport attempt is caught at the per-branch boundary: the
failure comment (with the manual-recovery script) and the `backport-failed`
label are posted on the original PR, and every entry of the map — including
every subsequent one — still has its branch attempt executed (witnessed by
its opening `git switch`). -/
theorem branch_failure_isolated (benvs : Nat → BranchEnv)
    (matched labelsToAdd : List String) (sha : String) (prN : Nat)
    (tt ot : String) (ms : Option Milestone) (mb : Option String)
    (entries : List (String × String)) (hlen : 2 ≤ entries.length)
    (j : Nat) (hj : j < entries.length) (m : String)
    (herr : (backportOnce (benvs j) (entries.get ⟨j, hj⟩).1
        (entries.get ⟨j, hj⟩).2 (mkTitle tt (entries.get ⟨j, hj⟩).1 ot)
        (mkBody sha prN) sha
        (labelsToAdd ++ (List.replicate (j + 1) matched).flatten) ms mb).2 =
      some m) :
    Eff.createComment prN
        (getFailedBackportCommentBody (entries.get ⟨j, hj⟩).1 sha m
          (entries.get ⟨j, hj⟩).2) ∈
      runBranches benvs 0 labelsToAdd matched sha prN tt ot ms mb entries ∧
    Eff.addLabelsTo prN ["backport-failed"] ∈
      runBranches benvs 0 labelsToAdd matched sha prN tt ot ms mb entries ∧
    ∀ k (hk : k < entries.length),
      Eff.gitSwitch (entries.get ⟨k, hk⟩).1 ∈
        runBranches benvs 0 labelsToAdd matched sha prN tt ot ms mb entries := by
  obtain ⟨pre, post, hpp⟩ := runBranches_decomp benvs matched sha prN tt ot
    ms mb entries j hj 0 labelsToAdd
  rw [Nat.zero_add] at hpp
  have hblock : branchBlock (benvs j) (entries.get ⟨j, hj⟩).1
      (entries.get ⟨j, hj⟩).2
      (labelsToAdd ++ (List.replicate (j + 1) matched).flatten) sha prN tt ot
      ms mb =
      (backportOnce (benvs j) (entries.get ⟨j, hj⟩).1 (entries.get ⟨j, hj⟩).2
        (mkTitle tt (entries.get ⟨j, hj⟩).1 ot) (mkBody sha prN) sha
        (labelsToAdd ++ (List.replicate (j + 1) matched).flatten) ms mb).1 ++
        [Eff.createComment prN
          (getFailedBackportCommentBody (entries.get ⟨j, hj⟩).1 sha m
            (entries.get ⟨j, hj⟩).2),
         Eff.addLabelsTo prN ["backport-failed"]] := by
    simp only [branchBlock]
    rw [herr]
  refine ⟨?_, ?_, ?_⟩
  · rw [hpp, hblock]
    simp [List.mem_append]
  · rw [hpp, hblock]
    simp [List.mem_append]
  · intro k hk
    obtain ⟨pre₂, post₂, hpp₂⟩ := runBranches_decomp benvs matched sha prN tt
      ot ms mb entries k hk 0 labelsToAdd
    rw [hpp₂]
    refine List.mem_append_left _ (List.mem_append_right _ ?_)
    exact gitSwitch_mem_branchBlock _ _ _ _ _ _ _ _ _ _

/-- Witness for C4: first of two branches fails at the push; the failure label
is posted and the second branch is still attempted. -/
theorem branch_failure_isolated_witness :
    Eff.addLabelsTo 9 ["backport-failed"] ∈
      runBranches firstFailEnvs 0 [] ["type/bug"] "sha" 9 "tt" "ot" none none
        [("v1", "h1"), ("v2", "h2")] ∧
    Eff.gitSwitch "v2" ∈
      runBranches firstFailEnvs 0 [] ["type/bug"] "sha" 9 "tt" "ot" none none
        [("v1", "h1"), ("v2", "h2")] := by
  have h := branch_failure_isolated firstFailEnvs ["type/bug"] [] "sha" 9 "tt"
    "ot" none none [("v1", "h1"), ("v2", "h2")] (by decide) 0 (by decide)
    "push failed" (by decide)
  exact ⟨h.2.1, h.2.2 1 (by decide)⟩

theorem addLabels_mem_backportOnce (env : BranchEnv)
    (base head title body sha : String) (labels : List String)
    (ms : Option Milestone) (mb : Option String)
    (hok : branchOk env) (hlab : labels ≠ []) :
    Eff.addLabelsTo env.prNumber labels ∈
      (backportOnce env base head title body sha labels ms mb).1 := by
  obtain ⟨h1, h2, h3, h4, h5, h6, h7, h8, h9⟩ := hok
  have hsp2 : (switchPhase env base head).2 = none := by
    rw [switchPhase, h1, h2]
    rfl
  have hcp2 : (cherryPhase env sha).2 = none := by
    unfold cherryPhase
    rw [h3]
  have hms2 : (msPhase env ms).2 = none := by
    cases ms with
    | none => rfl
    | some mms =>
      by_cases hid : mms.id = 0
      · simp [msPhase, hid]
      · simp [msPhase, hid, h6]
  have hdr2 : (delRevPhase env).2 = none := by
    unfold delRevPhase
    cases hrr : env.requestedReviewers with
    | none => rfl
    | some rs => exact h7
  have hcr2 : (createRevPhase env mb).2 = none := by
    cases mb with
    | none => rfl
    | some u => exact h8
  have hal : addLabelsPhase env labels =
      ([Eff.addLabelsTo env.prNumber labels], env.addLabelsRes) := by
    rw [addLabelsPhase, if_neg]
    simp [hlab]
  unfold backportOnce
  apply mem_seqE_right hsp2
  apply mem_seqE_right hcp2
  unfold afterPick
  apply mem_seqE_right h4
  apply mem_seqE_right h5
  apply mem_seqE_right hms2
  apply mem_seqE_right hdr2
  apply mem_seqE_right hcr2
  rw [hal]
  exact List.mem_cons_self _ _

theorem flatten_replicate_toFinset (l : List String) :
    ∀ k : Nat, ((List.replicate (k + 1) l).flatten).toFinset = l.toFinset := by
  intro k
  induction k with
  | zero => simp
  | succ k ih =>
    rw [List.replicate_succ, List.flatten_cons, List.toFinset_append, ih]
    simp

/-- C9 (amended): for each map entry whose branch attempt fully succeeds, the
created PR receives an addLabels call whose label set equals the
caller-supplied labels together with the matched approval labels; however the
list passed for the `j`-th (0-based) entry contains the matched labels `j+1`
times, because `labelsToAdd.push(...matchedLabels)` runs once per processed
branch on the shared array. -/
theorem labels_accumulate (benvs : Nat → BranchEnv)
    (matched labelsToAdd : List String) (sha : String) (prN : Nat)
    (tt ot : String) (ms : Option Milestone) (mb : Option String)
    (entries : List (String × String)) (j : Nat) (hj : j < entries.length)
    (hok : branchOk (benvs j))
    (hlab : labelsToAdd ++ (List.replicate (j + 1) matched).flatten ≠ []) :
    Eff.addLabelsTo (benvs j).prNumber
        (labelsToAdd ++ (List.replicate (j + 1) matched).flatten) ∈
      runBranches benvs 0 labelsToAdd matched sha prN tt ot ms mb entries ∧
    (labelsToAdd ++ (List.replicate (j + 1) matched).flatten).toFinset =
      (labelsToAdd ++ matched).toFinset := by
  constructor
  · obtain ⟨pre, post, hpp⟩ := runBranches_decomp benvs matched sha prN tt ot
      ms mb entries j hj 0 labelsToAdd
    rw [Nat.zero_add] at hpp
    rw [hpp]
    refine List.mem_append_left _ (List.mem_append_right _ ?_)
    unfold branchBlock
    refine List.mem_append_left _ ?_
    exact addLabels_mem_backportOnce (benvs j) _ _ _ _ sha _ ms mb hok hlab
  · rw [List.toFinset_append, List.toFinset_append,
      flatten_replicate_toFinset matched j]

/-- Witness for C9 (amended): the second branch's addLabels call, with its
duplicated matched label and unchanged label set. -/
theorem labels_accumulate_witness :
    Eff.addLabelsTo 101 ["type/bug", "type/bug"] ∈
      runBranches okEnvs 0 [] ["type/bug"] "sha" 9 "tt" "ot" none none
        [("v1", "h1"), ("v2", "h2")] ∧
    (["type/bug", "type/bug"] : List String).toFinset =
      (["type/bug"] : List String).toFinset := by
  have h := labels_accumulate okEnvs ["type/bug"] [] "sha" 9 "tt" "ot" none
    none [("v1", "h1"), ("v2", "h2")] 1 (by decide)
    ⟨rfl, rfl, rfl, rfl, rfl, rfl, rfl, rfl, rfl⟩ (by decide)
  exact ⟨h.1, by decide⟩

/-- Counterexample to C9 as stated: with no caller-supplied labels and the
single matched approval label `type/bug`, the addLabels call of the second
created backport PR lists the matched label twice, not once. -/
theorem labels_once_cex :
    Eff.addLabelsTo 101 ["type/bug", "type/bug"] ∈
      backport [] twoBranchPayload "tt" "alice" okEnvs ∧
    Eff.addLabelsTo 101 ["type/bug"] ∉
      backport [] twoBranchPayload "tt" "alice" okEnvs := by
  exact ⟨by decide, by decide⟩

/-! ### C5: enterprise branch sync -/

/-- C5: for non-empty `source_branch`, `pr_number` and `source_sha`: if the
source branch exists in the target repository the created namespaced ref
points at its commit; otherwise the lookup falls back to the supplied target
branch (or `main` when empty), then to `main`; and a create failure that is a
`RequestError` with message `Reference already exists` is recovered by
force-updating the same ref to the same commit with no error, while any other
error from the create call propagates. -/
theorem enterprise_sync_resolution (env : SyncEnv) (sb pr sha tb : String)
    (hsb : sb ≠ "") (hpr : pr ≠ "") (hsha : sha ≠ "") :
    (∀ c, env.branches sb = some c →
      onTriggered env sb pr sha tb =
        (SyncEff.getBranch sb :: (createOrUpdateRef env pr sb c sha).1,
          (createOrUpdateRef env pr sb c sha).2)) ∧
    (∀ c, env.branches sb = none →
      env.branches (if tb = "" then "main" else tb) = some c →
      onTriggered env sb pr sha tb =
        ([SyncEff.getBranch sb,
          SyncEff.getBranch (if tb = "" then "main" else tb)] ++
            (createOrUpdateRef env pr sb c sha).1,
          (createOrUpdateRef env pr sb c sha).2)) ∧
    (∀ c, env.branches sb = none →
      env.branches (if tb = "" then "main" else tb) = none →
      env.branches "main" = some c →
      onTriggered env sb pr sha tb =
        ([SyncEff.getBranch sb,
          SyncEff.getBranch (if tb = "" then "main" else tb),
          SyncEff.getBranch "main"] ++ (createOrUpdateRef env pr sb c sha).1,
          (createOrUpdateRef env pr sb c sha).2)) ∧
    (∀ b c, env.createRes = some (JsErr.reqErr "Reference already exists") →
      createOrUpdateRef env pr b c sha =
        ([SyncEff.createRef (refNameNew pr sha b) c,
          SyncEff.updateRef (refNameUpd pr sha b) c true], none)) ∧
    (∀ b c e, env.createRes = some e →
      e ≠ JsErr.reqErr "Reference already exists" →
      (createOrUpdateRef env pr b c sha).2 = some e) := by
  refine ⟨?_, ?_, ?_, ?_, ?_⟩
  · intro c h
    simp only [onTriggered]
    rw [if_neg hsb, if_neg hpr, if_neg hsha, h]
  · intro c h h₂
    simp only [onTriggered]
    rw [if_neg hsb, if_neg hpr, if_neg hsha, h, h₂]
  · intro c h h₂ h₃
    simp only [onTriggered]
    rw [if_neg hsb, if_neg hpr, if_neg hsha, h, h₂, h₃]
  · intro b c h
    simp only [createOrUpdateRef]
    rw [h]
    rfl
  · intro b c e h hne
    simp only [createOrUpdateRef]
    rw [h]
    cases e with
    | reqErr m =>
      by_cases hm : m = "Reference already exists"
      · exact absurd (by rw [hm]) hne
      · simp [hm]
    | plainErr m => rfl

/-- Witness for C5: fallback through a missing target branch to `main`, and
the already-exists recovery. -/
theorem enterprise_sync_resolution_witness :
    onTriggered syncEnvMainOnly "feat" "12" "abc" "v9.2.x" =
      ([SyncEff.getBranch "feat", SyncEff.getBranch "v9.2.x",
        SyncEff.getBranch "main"] ++
          (createOrUpdateRef syncEnvMainOnly "12" "feat" "sha-main" "abc").1,
        (createOrUpdateRef syncEnvMainOnly "12" "feat" "sha-main" "abc").2) ∧
    createOrUpdateRef syncEnvExisting "12" "v9.2.x" "sha-src" "abc" =
      ([SyncEff.createRef (refNameNew "12" "abc" "v9.2.x") "sha-src",
        SyncEff.updateRef (refNameUpd "12" "abc" "v9.2.x") "sha-src" true],
        none) :=
  ⟨(enterprise_sync_resolution syncEnvMainOnly "feat" "12" "abc" "v9.2.x"
      (by decide) (by decide) (by decide)).2.2.1 "sha-main" (by decide)
      (by decide) (by decide),
   (enterprise_sync_resolution syncEnvExisting "v9.2.x" "12" "abc" ""
      (by decide) (by decide) (by decide)).2.2.2.1 "v9.2.x" "sha-src" rfl⟩
